import Mathlib

/-!
Shallow embedding of the SciPy tutorial notebook
`0_PythonBaseLibraries/2_ScipyLibrary.ipynb` and proofs of the
specification's claims about it.

The notebook defines three small functions of its own — the pendulum
right-hand side `dx`, the damped-oscillator right-hand side `dy`, and the
optimization objective `f` — wires a few parameters, and calls external
library routines (`odeint`, `fft`, `fftfreq`, `where`, fancy indexing).
We embed the repository-defined code over the real numbers; fallible
operations (indexing a too-short sequence, division by zero) return
`Option`, mirroring the Python exceptions; external library calls are
taken as opaque function parameters.
-/

noncomputable section

namespace Scipy

/-! ## Definitions -/

/-- Global constant `g = 9.82` from the pendulum cell. -/
def g : ℝ := 9.82

/-- Global constant `L = 0.5` from the pendulum cell. -/
def L : ℝ := 0.5

/-- Global constant `m = 0.1` from the pendulum cell. -/
def m : ℝ := 0.1

/-- The right-hand side of the pendulum ODE, embedding

```
def dx(x, t):
    x1, x2, x3, x4 = x[0], x[1], x[2], x[3]
    dx1 = 6.0/(m*L**2) * (2 * x3 - 3 * cos(x1-x2) * x4)/(16 - 9 * cos(x1-x2)**2)
    dx2 = 6.0/(m*L**2) * (8 * x4 - 3 * cos(x1-x2) * x3)/(16 - 9 * cos(x1-x2)**2)
    dx3 = -0.5 * m * L**2 * ( dx1 * dx2 * sin(x1-x2) + 3 * (g/L) * sin(x1))
    dx4 = -0.5 * m * L**2 * (-dx1 * dx2 * sin(x1-x2) + (g/L) * sin(x2))
    return [dx1, dx2, dx3, dx4]
```

`none` models the Python error branches: an `IndexError` when the input
sequence has fewer than four components, and a `ZeroDivisionError` when a
denominator of one of the divisions (`m*L**2`, `16 - 9*cos(x1-x2)**2`, or
`L` in `g/L`) is zero. -/
def dx (x : List ℝ) (t : ℝ) : Option (List ℝ) :=
  match x with
  | x1 :: x2 :: x3 :: x4 :: _ =>
    if m * L ^ 2 = 0 ∨ 16 - 9 * Real.cos (x1 - x2) ^ 2 = 0 ∨ L = 0 then
      none
    else
      let dx1 := 6.0 / (m * L ^ 2) * (2 * x3 - 3 * Real.cos (x1 - x2) * x4) /
        (16 - 9 * Real.cos (x1 - x2) ^ 2)
      let dx2 := 6.0 / (m * L ^ 2) * (8 * x4 - 3 * Real.cos (x1 - x2) * x3) /
        (16 - 9 * Real.cos (x1 - x2) ^ 2)
      let dx3 := -0.5 * m * L ^ 2 *
        (dx1 * dx2 * Real.sin (x1 - x2) + 3 * (g / L) * Real.sin x1)
      let dx4 := -0.5 * m * L ^ 2 *
        (-dx1 * dx2 * Real.sin (x1 - x2) + (g / L) * Real.sin x2)
      some [dx1, dx2, dx3, dx4]
  | _ => none

/-- The right-hand side of the damped oscillator ODE, embedding

```
def dy(y, t, zeta, w0):
    x, p = y[0], y[1]
    dx = p
    dp = -2 * zeta * w0 * p - w0**2 * x
    return [dx, dp]
```

`none` models the `IndexError` when `y` has fewer than two components. -/
def dy (y : List ℝ) (t zeta w0 : ℝ) : Option (List ℝ) :=
  match y with
  | x :: p :: _ => some [p, -2 * zeta * w0 * p - w0 ^ 2 * x]
  | _ => none

/-- The optimization objective, embedding `def f(x): return 4*x**3 + (x-2)**2 + x**4`. -/
def f (x : ℝ) : ℝ := 4 * x ^ 3 + (x - 2) ^ 2 + x ^ 4

/-- The pendulum-plot coordinate transformation applied to one row
`(theta1, theta2)` of the solution array, embedding

```
x1 = + L * sin(x[:, 0])
y1 = - L * cos(x[:, 0])
x2 = x1 + L * sin(x[:, 1])
y2 = y1 - L * cos(x[:, 1])
```
-/
def pendulumXY (theta1 theta2 : ℝ) : ℝ × ℝ × ℝ × ℝ :=
  let x1 := L * Real.sin theta1
  let y1 := -L * Real.cos theta1
  let x2 := x1 + L * Real.sin theta2
  let y2 := y1 - L * Real.cos theta2
  (x1, y1, x2, y2)

/-- The module-level bindings read by `dx`. The notebook assigns them once,
in the cell that defines `dx`, and never reassigns them; a program state is
abstracted by the values these three names are bound to. -/
structure Globals where
  gv : ℝ
  Lv : ℝ
  mv : ℝ

/-- The binding of `g`, `L`, `m` produced by the cell
`g = 9.82; L = 0.5; m = 0.1` — the only assignment to these names in the
notebook, so every program state carries these values. -/
def notebookGlobals : Globals := ⟨9.82, 0.5, 0.1⟩

/-- `dx` re-embedded with its three free global names made explicit, so that
the dependence of a call on the surrounding program state is exactly the
dependence on `G`. The body is the same as `dx`'s with `g`, `L`, `m`
replaced by the state's bindings. -/
def dxIn (G : Globals) (x : List ℝ) (t : ℝ) : Option (List ℝ) :=
  match x with
  | x1 :: x2 :: x3 :: x4 :: _ =>
    if G.mv * G.Lv ^ 2 = 0 ∨ 16 - 9 * Real.cos (x1 - x2) ^ 2 = 0 ∨ G.Lv = 0 then
      none
    else
      let dx1 := 6.0 / (G.mv * G.Lv ^ 2) * (2 * x3 - 3 * Real.cos (x1 - x2) * x4) /
        (16 - 9 * Real.cos (x1 - x2) ^ 2)
      let dx2 := 6.0 / (G.mv * G.Lv ^ 2) * (8 * x4 - 3 * Real.cos (x1 - x2) * x3) /
        (16 - 9 * Real.cos (x1 - x2) ^ 2)
      let dx3 := -0.5 * G.mv * G.Lv ^ 2 *
        (dx1 * dx2 * Real.sin (x1 - x2) + 3 * (G.gv / G.Lv) * Real.sin x1)
      let dx4 := -0.5 * G.mv * G.Lv ^ 2 *
        (-dx1 * dx2 * Real.sin (x1 - x2) + (G.gv / G.Lv) * Real.sin x2)
      some [dx1, dx2, dx3, dx4]
  | _ => none

/-- `y2[:, 0]`: the first column of a two-dimensional array given as a list
of rows; `none` models the error on an empty row. -/
def colZero (a : List (List ℝ)) : Option (List ℝ) :=
  match a with
  | [] => some []
  | r :: rs =>
    match r.head?, colZero rs with
    | some v, some l => some (v :: l)
    | _, _ => none

/-- The Fourier-transform cell

```
N = len(t)
dt = t[1]-t[0]
F = fft(y2[:,0])
w = fftfreq(N, dt)
```

as a function of everything it reads: the external library routines `fft`
and `fftfreq` (opaque parameters) and the variables `t` and `y2`, both of
which were assigned in the damped-oscillator section, not in this cell.
`none` models the `IndexError` of `t[1]`/`t[0]` on a too-short `t` and of
`y2[:,0]` on an empty row; the result is the tuple of the cell's
assignments `(N, dt, F, w)`. -/
def fourierBlock (fftI : List ℝ → List ℂ) (fftfreqI : ℕ → ℝ → List ℝ)
    (t : List ℝ) (y2 : List (List ℝ)) : Option (ℕ × ℝ × List ℂ × List ℝ) :=
  match t, colZero y2 with
  | t0 :: t1 :: rest, some c =>
    let N := (t0 :: t1 :: rest).length
    let dt := t1 - t0
    some (N, dt, fftI c, fftfreqI N dt)
  | _, _ => none

/-- Initial state of the pendulum example: `x0 = [pi/4, pi/2, 0, 0]`. -/
def x0 : List ℝ := [Real.pi / 4, Real.pi / 2, 0, 0]

/-- Initial state of the damped-oscillator example: `y0 = [1.0, 0.0]`. -/
def y0 : List ℝ := [1.0, 0.0]

/-- `w0 = 2*pi*1.0` from the damped-oscillator section. -/
def w0 : ℝ := 2 * Real.pi * 1.0

/-- The pendulum solving cell `x = odeint(dx, x0, t)`: a bare library call
with no `try`/`except` around it, so the cell's outcome is exactly the
library's outcome. `odeintI` is the opaque external routine, which either
returns a solution array or raises an error of type `ε`. -/
def pendulumSolve {ε : Type}
    (odeintI : (List ℝ → ℝ → Option (List ℝ)) → List ℝ → List ℝ →
      Except ε (List (List ℝ)))
    (t : List ℝ) : Except ε (List (List ℝ)) :=
  odeintI dx x0 t

/-- The damped-oscillator solving cell

```
y1 = odeint(dy, y0, t, args=(0.0, w0))
y2 = odeint(dy, y0, t, args=(0.2, w0))
y3 = odeint(dy, y0, t, args=(1.0, w0))
y4 = odeint(dy, y0, t, args=(5.0, w0))
```

with no `try`/`except`: the four library calls run in order and the first
raised error aborts the cell, assigning nothing. -/
def dampedSolve {ε : Type}
    (odeintI : (List ℝ → ℝ → ℝ → ℝ → Option (List ℝ)) → List ℝ → List ℝ →
      ℝ × ℝ → Except ε (List (List ℝ)))
    (t : List ℝ) :
    Except ε (List (List ℝ) × List (List ℝ) × List (List ℝ) × List (List ℝ)) := do
  let r1 ← odeintI dy y0 t (0.0, w0)
  let r2 ← odeintI dy y0 t (0.2, w0)
  let r3 ← odeintI dy y0 t (1.0, w0)
  let r4 ← odeintI dy y0 t (5.0, w0)
  return (r1, r2, r3, r4)

/-- An always-failing stand-in for the external `odeint` at the pendulum
call site, used to exercise the error path. -/
def failOdeintP : (List ℝ → ℝ → Option (List ℝ)) → List ℝ → List ℝ →
    Except String (List (List ℝ)) :=
  fun _ _ _ => .error "boom"

/-- An always-failing stand-in for the external `odeint` at the
damped-oscillator call sites, used to exercise the error path. -/
def failOdeintD : (List ℝ → ℝ → ℝ → ℝ → Option (List ℝ)) → List ℝ → List ℝ →
    ℝ × ℝ → Except String (List (List ℝ)) :=
  fun _ _ _ _ => .error "boom"

/-- `indices = where(w > 0)`: the indices, in increasing order, at which
the array `w` is strictly positive. -/
def indicesPos (w : List ℝ) : List ℕ :=
  (List.range w.length).filter (fun i => decide (0 < w.getD i 0))

/-- NumPy integer-array indexing `v[indices]`, as in `w[indices]` and
`F[indices]`; `none` models the `IndexError` on an out-of-range index. -/
def fancyIndex {α : Type} (v : List α) : List ℕ → Option (List α)
  | [] => some []
  | i :: is =>
    match v.get? i, fancyIndex v is with
    | some a, some l => some (a :: l)
    | _, _ => none

/-! ## Lemmas -/

/-- The denominator shared by the two divisions in `dx` lies in `[7, 16]`. -/
lemma den_bounds (a : ℝ) :
    7 ≤ 16 - 9 * Real.cos a ^ 2 ∧ 16 - 9 * Real.cos a ^ 2 ≤ 16 := by
  have h1 : Real.cos a ^ 2 ≤ 1 := Real.cos_sq_le_one a
  have h2 : 0 ≤ Real.cos a ^ 2 := sq_nonneg _
  constructor <;> nlinarith

/-- The denominator shared by the two divisions in `dx` is never zero. -/
lemma den_ne_zero (a : ℝ) : 16 - 9 * Real.cos a ^ 2 ≠ 0 := by
  have h := (den_bounds a).1
  intro hz
  rw [hz] at h
  norm_num at h

/-- `m * L ^ 2 = 0.025`, in particular it is nonzero. -/
lemma mL2_eq : m * L ^ 2 = 0.025 := by
  norm_num [m, L]

/-- The error guard in `dx` is never taken. -/
lemma dx_guard_false (x1 x2 : ℝ) :
    ¬ (m * L ^ 2 = 0 ∨ 16 - 9 * Real.cos (x1 - x2) ^ 2 = 0 ∨ L = 0) := by
  rintro (h | h | h)
  · rw [mL2_eq] at h; norm_num at h
  · exact den_ne_zero _ h
  · rw [L] at h; norm_num at h

/-- On a sequence of four or more components `dx` takes its success branch
and returns a four-element list. -/
lemma dx_cons (x1 x2 x3 x4 : ℝ) (rest : List ℝ) (t : ℝ) :
    ∃ a b c d, dx (x1 :: x2 :: x3 :: x4 :: rest) t = some [a, b, c, d] := by
  rw [dx, if_neg (dx_guard_false x1 x2)]
  exact ⟨_, _, _, _, rfl⟩

/-- Membership in `indicesPos`: exactly the in-range indices with a
strictly positive entry. -/
lemma mem_indicesPos (w : List ℝ) (i : ℕ) :
    i ∈ indicesPos w ↔ i < w.length ∧ 0 < w.getD i 0 := by
  simp [indicesPos, List.mem_filter, List.mem_range]

/-- `indicesPos` is strictly increasing. -/
lemma indicesPos_sorted (w : List ℝ) : (indicesPos w).Pairwise (· < ·) :=
  (List.pairwise_lt_range _).filter _

/-- On a list of valid indices, fancy indexing succeeds, preserves the
number of indices, and returns at position `k` the entry of `v` at the
`k`-th index. -/
lemma fancyIndex_spec {α : Type} (v : List α) (idx : List ℕ)
    (h : ∀ i ∈ idx, i < v.length) :
    ∃ l, fancyIndex v idx = some l ∧ l.length = idx.length ∧
      ∀ k : ℕ, l.get? k = (idx.get? k).bind v.get? := by
  induction idx with
  | nil => exact ⟨[], rfl, rfl, fun k => by cases k <;> rfl⟩
  | cons i is ih =>
    obtain ⟨l, hl, hlen, hg⟩ := ih (fun j hj => h j (List.mem_cons_of_mem _ hj))
    have hi : i < v.length := h i (List.mem_cons_self i is)
    refine ⟨v.get ⟨i, hi⟩ :: l, ?_, by simp [hlen], ?_⟩
    · simp [fancyIndex, hl, List.getElem?_eq_getElem hi]
    · intro k
      cases k with
      | zero => simp [List.get?_eq_get hi]
      | succ k => simpa using hg k

/-! ## Claims -/

/-- **C1.** For every real 4-vector input and every time `t`, `dx` returns
exactly the list given by the double-pendulum equations of motion with
`m = 0.1`, `L = 0.5`, `g = 9.82`. -/
theorem dx_equations_of_motion (x1 x2 x3 x4 : ℝ) (rest : List ℝ) (t : ℝ) :
    dx (x1 :: x2 :: x3 :: x4 :: rest) t =
      some [6 / (0.1 * 0.5 ^ 2) * (2 * x3 - 3 * Real.cos (x1 - x2) * x4) /
              (16 - 9 * Real.cos (x1 - x2) ^ 2),
            6 / (0.1 * 0.5 ^ 2) * (8 * x4 - 3 * Real.cos (x1 - x2) * x3) /
              (16 - 9 * Real.cos (x1 - x2) ^ 2),
            -0.5 * 0.1 * 0.5 ^ 2 *
              ((6 / (0.1 * 0.5 ^ 2) * (2 * x3 - 3 * Real.cos (x1 - x2) * x4) /
                  (16 - 9 * Real.cos (x1 - x2) ^ 2)) *
               (6 / (0.1 * 0.5 ^ 2) * (8 * x4 - 3 * Real.cos (x1 - x2) * x3) /
                  (16 - 9 * Real.cos (x1 - x2) ^ 2)) * Real.sin (x1 - x2) +
               3 * (9.82 / 0.5) * Real.sin x1),
            -0.5 * 0.1 * 0.5 ^ 2 *
              (-((6 / (0.1 * 0.5 ^ 2) * (2 * x3 - 3 * Real.cos (x1 - x2) * x4) /
                  (16 - 9 * Real.cos (x1 - x2) ^ 2)) *
                 (6 / (0.1 * 0.5 ^ 2) * (8 * x4 - 3 * Real.cos (x1 - x2) * x3) /
                  (16 - 9 * Real.cos (x1 - x2) ^ 2))) * Real.sin (x1 - x2) +
               (9.82 / 0.5) * Real.sin x2)] := by
  rw [dx]
  rw [if_neg (dx_guard_false x1 x2)]
  norm_num [g, L, m]

/-- **C2.** For every state vector `[x, p]`, every time `t`, and all
parameters `zeta` and `w0`, `dy` returns exactly
`[p, -2*zeta*w0*p - w0^2*x]`. -/
theorem dy_equations_of_motion (x p : ℝ) (rest : List ℝ) (t zeta w0 : ℝ) :
    dy (x :: p :: rest) t zeta w0 = some [p, -2 * zeta * w0 * p - w0 ^ 2 * x] :=
  rfl

/-- **C10.** The pendulum-plot coordinate transformation keeps both rods at
constant length `L = 0.5`: `x1^2 + y1^2 = L^2` and
`(x2-x1)^2 + (y2-y1)^2 = L^2` for every pair of real angles. -/
theorem pendulumXY_rod_lengths (theta1 theta2 : ℝ) :
    ((pendulumXY theta1 theta2).1) ^ 2 + ((pendulumXY theta1 theta2).2.1) ^ 2 = L ^ 2 ∧
    ((pendulumXY theta1 theta2).2.2.1 - (pendulumXY theta1 theta2).1) ^ 2 +
      ((pendulumXY theta1 theta2).2.2.2 - (pendulumXY theta1 theta2).2.1) ^ 2 = L ^ 2 ∧
    L = 0.5 := by
  have h1 := Real.sin_sq_add_cos_sq theta1
  have h2 := Real.sin_sq_add_cos_sq theta2
  refine ⟨?_, ?_, rfl⟩ <;> simp only [pendulumXY] <;> nlinarith

/-- **C3.** Every division inside `dx` is well-defined for every real input:
the shared denominator `16 - 9*cos(x1-x2)^2` lies in `[7, 16]` and is never
zero, `m * L^2 = 0.025 ≠ 0`, and hence the division-error branch of `dx` is
unreachable: `dx` returns a value on every real 4-vector. -/
theorem dx_divisions_welldefined (x1 x2 x3 x4 : ℝ) (rest : List ℝ) (t : ℝ) :
    (7 ≤ 16 - 9 * Real.cos (x1 - x2) ^ 2 ∧
     16 - 9 * Real.cos (x1 - x2) ^ 2 ≤ 16 ∧
     16 - 9 * Real.cos (x1 - x2) ^ 2 ≠ 0) ∧
    (m * L ^ 2 = 0.025 ∧ m * L ^ 2 ≠ 0) ∧
    (dx (x1 :: x2 :: x3 :: x4 :: rest) t).isSome = true := by
  refine ⟨⟨(den_bounds _).1, (den_bounds _).2, den_ne_zero _⟩,
          ⟨mL2_eq, by rw [mL2_eq]; norm_num⟩, ?_⟩
  rw [dx, if_neg (dx_guard_false x1 x2)]
  rfl

/-- **C4.** The right-hand-side functions preserve the state dimension:
on any input sequence with at least 4 components, `dx` returns a list of
exactly 4 numbers, and on any input sequence with at least 2 components,
`dy` returns a list of exactly 2 numbers. -/
theorem rhs_preserve_length (x y : List ℝ) (t t2 zeta w0 : ℝ)
    (hx : 4 ≤ x.length) (hy : 2 ≤ y.length) :
    (∃ l, dx x t = some l ∧ l.length = 4) ∧
    (∃ l, dy y t2 zeta w0 = some l ∧ l.length = 2) := by
  constructor
  · match x, hx with
    | x1 :: x2 :: x3 :: x4 :: rest, _ =>
      obtain ⟨a, b, c, d, h⟩ := dx_cons x1 x2 x3 x4 rest t
      exact ⟨[a, b, c, d], h, rfl⟩
  · match y, hy with
    | a :: b :: rest, _ => exact ⟨_, rfl, rfl⟩

/-- Witness for **C4** at the concrete inputs `[0,0,0,0]` and `[0,0]`. -/
theorem rhs_preserve_length_witness :
    4 ≤ ([0, 0, 0, 0] : List ℝ).length ∧ 2 ≤ ([0, 0] : List ℝ).length ∧
    ((∃ l, dx [0, 0, 0, 0] 0 = some l ∧ l.length = 4) ∧
     (∃ l, dy [0, 0] 0 0 0 = some l ∧ l.length = 2)) :=
  ⟨by simp, by simp,
   rhs_preserve_length [0, 0, 0, 0] [0, 0] 0 0 0 0 (by simp) (by simp)⟩

/-- **C5.** The functions the repository defines itself — `dx`, `dy`, and
the objective `f` — are straight-line arithmetic: `f` computes exactly
`4*x^3 + (x-2)^2 + x^4`, and each function is total, returning a value on
every input. -/
theorem repo_functions_terminate (x y : List ℝ) (t t2 zeta w0 u : ℝ) :
    f u = 4 * u ^ 3 + (u - 2) ^ 2 + u ^ 4 ∧
    (∃ r, dx x t = r) ∧ (∃ r, dy y t2 zeta w0 = r) ∧ (∃ r, f u = r) :=
  ⟨rfl, ⟨_, rfl⟩, ⟨_, rfl⟩, ⟨_, rfl⟩⟩

/-- **C6.** The value returned by `dx` is determined by its explicit
arguments alone: for any two calls made in any two program states — both of
which bind the globals `g`, `L`, `m` to the values of the notebook's single
assignment — equal arguments give equal results, and the result is the one
computed by `dx`. -/
theorem dx_state_independent (s s' : Globals)
    (hs : s = notebookGlobals) (hs' : s' = notebookGlobals)
    (x x' : List ℝ) (t t' : ℝ) (hx : x = x') (ht : t = t') :
    dxIn s x t = dxIn s' x' t' ∧ dxIn s x t = dx x t := by
  subst hs hs' hx ht
  exact ⟨rfl, rfl⟩

/-- Witness for **C6** at the concrete state `notebookGlobals` and input
`([0,0,0,0], 0)`. -/
theorem dx_state_independent_witness :
    notebookGlobals = notebookGlobals ∧ ([0, 0, 0, 0] : List ℝ) = [0, 0, 0, 0] ∧
    (0 : ℝ) = 0 ∧
    (dxIn notebookGlobals [0, 0, 0, 0] 0 = dxIn notebookGlobals [0, 0, 0, 0] 0 ∧
     dxIn notebookGlobals [0, 0, 0, 0] 0 = dx [0, 0, 0, 0] 0) :=
  ⟨rfl, rfl, rfl,
   dx_state_independent notebookGlobals notebookGlobals rfl rfl
     [0, 0, 0, 0] [0, 0, 0, 0] 0 0 rfl rfl⟩

/-- **C7, counterexample.** The Fourier-transform block's result does depend
on values produced by another example block: it reads `t` (and `y2`) from
the damped-oscillator section, and two runs that differ only in that
outside variable `t` produce different block outputs (already the assigned
`N = len(t)` differs). -/
theorem fourierBlock_reads_other_block :
    fourierBlock (fun _ => []) (fun _ _ => []) [0, 1] [[0]] ≠
    fourierBlock (fun _ => []) (fun _ _ => []) [0, 1, 2] [[0]] := by
  simp [fourierBlock, colZero]

/-- **C7, amended.** The Fourier-transform block reads the cross-block
variables `t` and `y2` assigned in the damped-oscillator section; its
output is determined by those inputs together with the external `fft` and
`fftfreq` routines: two runs that agree on all of them produce equal block
outputs. -/
theorem fourierBlock_determined_by_inputs
    (fftI fftI' : List ℝ → List ℂ) (ffI ffI' : ℕ → ℝ → List ℝ)
    (t t' : List ℝ) (y2 y2' : List (List ℝ))
    (h1 : fftI = fftI') (h2 : ffI = ffI') (h3 : t = t') (h4 : y2 = y2') :
    fourierBlock fftI ffI t y2 = fourierBlock fftI' ffI' t' y2' := by
  subst h1 h2 h3 h4
  rfl

/-- Witness for the amended **C7** at concrete equal inputs. -/
theorem fourierBlock_determined_by_inputs_witness :
    (fun (_ : List ℝ) => ([] : List ℂ)) = (fun _ => []) ∧
    (fun (_ : ℕ) (_ : ℝ) => ([] : List ℝ)) = (fun _ _ => []) ∧
    ([0, 1] : List ℝ) = [0, 1] ∧ ([[0]] : List (List ℝ)) = [[0]] ∧
    fourierBlock (fun _ => []) (fun _ _ => []) [0, 1] [[0]] =
      fourierBlock (fun _ => []) (fun _ _ => []) [0, 1] [[0]] :=
  ⟨rfl, rfl, rfl, rfl,
   fourierBlock_determined_by_inputs _ _ _ _ [0, 1] [0, 1] [[0]] [[0]]
     rfl rfl rfl rfl⟩

/-- **C8.** The repository defines no exception handler: when the external
`odeint` raises at the pendulum call site or at the first damped-oscillator
call site, the enclosing cell yields exactly that same error, with no
catch, recovery, retry, or substitution, and no partial assignment
survives the failing cell. -/
theorem no_exception_handler {ε : Type}
    (odeintP : (List ℝ → ℝ → Option (List ℝ)) → List ℝ → List ℝ →
      Except ε (List (List ℝ)))
    (odeintD : (List ℝ → ℝ → ℝ → ℝ → Option (List ℝ)) → List ℝ → List ℝ →
      ℝ × ℝ → Except ε (List (List ℝ)))
    (t : List ℝ) (e : ε)
    (hP : odeintP dx x0 t = .error e)
    (hD : odeintD dy y0 t (0.0, w0) = .error e) :
    pendulumSolve odeintP t = .error e ∧ dampedSolve odeintD t = .error e := by
  constructor
  · exact hP
  · simp only [dampedSolve, hD]
    rfl

/-- Witness for **C8** with an always-failing `odeint` stand-in. -/
theorem no_exception_handler_witness :
    failOdeintP dx x0 [] = .error "boom" ∧
    failOdeintD dy y0 [] (0.0, w0) = .error "boom" ∧
    (pendulumSolve failOdeintP [] = .error "boom" ∧
     dampedSolve failOdeintD [] = .error "boom") :=
  ⟨rfl, rfl, no_exception_handler failOdeintP failOdeintD [] "boom" rfl rfl⟩

/-- **C9.** With `indices = where(w > 0)`, `w_pos = w[indices]` and
`F_pos = F[indices]` (for `F` of the same length as `w`): both extractions
succeed, every element of `w_pos` is strictly positive, `w_pos` and `F_pos`
have equal length, the `k`-th entries of `w_pos` and `F_pos` are the
entries of `w` and `F` at the `k`-th selected index, and the selected
indices are exactly the in-range indices with `w[i] > 0`, in strictly
increasing order — no positive entry is dropped and no non-positive entry
is kept. -/
theorem positive_frequency_extraction (w : List ℝ) (F : List ℂ)
    (hF : F.length = w.length) :
    ∃ wp Fp,
      fancyIndex w (indicesPos w) = some wp ∧
      fancyIndex F (indicesPos w) = some Fp ∧
      (∀ a ∈ wp, 0 < a) ∧
      wp.length = Fp.length ∧
      (∀ k : ℕ, wp.get? k = ((indicesPos w).get? k).bind w.get? ∧
                Fp.get? k = ((indicesPos w).get? k).bind F.get?) ∧
      (∀ i, i ∈ indicesPos w ↔ i < w.length ∧ 0 < w.getD i 0) ∧
      (indicesPos w).Pairwise (· < ·) := by
  have hvalid : ∀ i ∈ indicesPos w, i < w.length :=
    fun i hi => ((mem_indicesPos w i).mp hi).1
  obtain ⟨wp, hwp, hwplen, hwget⟩ := fancyIndex_spec w _ hvalid
  obtain ⟨Fp, hFp, hFplen, hFget⟩ :=
    fancyIndex_spec F _ (fun i hi => hF ▸ hvalid i hi)
  refine ⟨wp, Fp, hwp, hFp, ?_, by rw [hwplen, hFplen],
          fun k => ⟨hwget k, hFget k⟩, mem_indicesPos w, indicesPos_sorted w⟩
  intro a ha
  obtain ⟨k, hk⟩ := List.mem_iff_get?.mp ha
  rw [hwget k] at hk
  obtain ⟨i, hik, hia⟩ := Option.bind_eq_some.mp hk
  have hipos : 0 < w.getD i 0 :=
    ((mem_indicesPos w i).mp (List.get?_mem hik)).2
  rwa [List.getD_eq_get?, hia] at hipos

/-- Witness for **C9** at the concrete arrays `w = [1, -1, 2]` and
`F = [10, 20, 30]`. -/
theorem positive_frequency_extraction_witness :
    ([10, 20, 30] : List ℂ).length = ([1, -1, 2] : List ℝ).length ∧
    (∃ (wp : List ℝ) (Fp : List ℂ),
      fancyIndex ([1, -1, 2] : List ℝ) (indicesPos [1, -1, 2]) = some wp ∧
      fancyIndex ([10, 20, 30] : List ℂ) (indicesPos [1, -1, 2]) = some Fp ∧
      (∀ a ∈ wp, 0 < a) ∧
      wp.length = Fp.length ∧
      (∀ k : ℕ, wp.get? k = ((indicesPos [1, -1, 2]).get? k).bind
                  (List.get? ([1, -1, 2] : List ℝ)) ∧
                Fp.get? k = ((indicesPos [1, -1, 2]).get? k).bind
                  (List.get? ([10, 20, 30] : List ℂ))) ∧
      (∀ i, i ∈ indicesPos [1, -1, 2] ↔
        i < ([1, -1, 2] : List ℝ).length ∧
          0 < List.getD ([1, -1, 2] : List ℝ) i 0) ∧
      (indicesPos [1, -1, 2]).Pairwise (· < ·)) :=
  ⟨by simp, positive_frequency_extraction [1, -1, 2] [10, 20, 30] (by simp)⟩

end Scipy
